import Mathlib

/-!
Verification of the Stomach core of the RusTeX engine
(`tex_engine/src/engine/stomach.rs`) against its specification.

The Rust code is shallowly embedded: the trait methods of `Stomach<ET>`
become Lean functions on an explicit `Engine` record.  The external
collaborators (Mouth, State, Gullet, diagnostic outputs) are interfaces in
the Rust code; calls into them are modelled as updates to small state
components plus an entry in an ordered `trace` of interface events, so that
ordering claims ("A happens before B") are expressible.  Machine integers
(`i32` dimensions in scaled points, penalties) are modelled as `Int`;
overflow plays no role in the control logic verified here.

Stack convention: the Rust code keeps `open_lists` as a `Vec` used as a
stack (push/pop/last at the *end*).  Here `open_lists : List NodeList` keeps
the *top of the stack at the head*, so Rust `last()` is Lean head-matching
and Rust `iter().rev()` (top towards base) is plain head-first traversal.
Children lists keep their natural order; `push` appends at the end.
-/

/-- Catcode / command code of a token (`tex/catcodes.rs::CommandCode`,
only the variants the verified slice inspects, plus a generic rest). -/
inductive CommandCode where
  | Escape
  | BeginGroup
  | EndGroup
  | Space
  | Letter
  | Other
  | Active
  | MathShift
deriving DecidableEq, Repr

/-- A token as seen through `Token::to_enum()` (`StandardToken`):
either a character with a command code or a control sequence. -/
inductive Token where
  | character (char : Nat) (code : CommandCode)
  | cs (nm : String)
deriving DecidableEq, Repr

/-- Result of `Gullet::char_or_primitive(state, token)`: the token resolves
to a character or to a primitive command. -/
inductive CharOrPrimitive where
  | char (c : Nat) (code : CommandCode)
  | primitive (nm : String)
deriving DecidableEq, Repr

/-- Group type tags pushed on the State (`state::GroupType`); only the tags
used by the verified slice are distinguished. -/
inductive GroupType where
  | Align
  | Math
  | Simple
deriving DecidableEq, Repr

instance : ToString GroupType where
  toString g := match g with
    | .Align => "align"
    | .Math => "math"
    | .Simple => "simple"

/-- A glue value (`numerics::Skip`): base dimension with stretch and
shrink, all in scaled points.  Fil orders are not needed by any claim. -/
structure Skip where
  base : Int
  stretch : Int
  shrink : Int
deriving DecidableEq, Repr

/-- `Skip::default()` -/
def Skip.zero : Skip := ⟨0, 0, 0⟩

/-- The six TeX modes (`stomach.rs::TeXMode`). -/
inductive TeXMode where
  | Vertical
  | InternalVertical
  | Horizontal
  | RestrictedHorizontal
  | InlineMath
  | DisplayMath
deriving DecidableEq, Repr

/-- `BoxType` (`nodes/boxes.rs`). -/
inductive BoxType where
  | Horizontal
  | Vertical
deriving DecidableEq, Repr

/-- `ToOrSpread`: the sizing directive of a box. -/
inductive ToOrSpread where
  | None
  | To (d : Int)
  | Spread (d : Int)
deriving DecidableEq, Repr

/-- Math atom classes (`nodes/math.rs::MathClass`). -/
inductive MathClass where
  | Ord
  | Op
  | Bin
  | Rel
  | Open
  | Close
  | Punct
deriving DecidableEq, Repr

/-- Decode a class number (bits 12-14 of a mathcode). -/
def MathClass.fromNat : Nat → MathClass
  | 1 => .Op
  | 2 => .Bin
  | 3 => .Rel
  | 4 => .Open
  | 5 => .Close
  | 6 => .Punct
  | _ => .Ord

/-- An extension/whatsit node, reduced to its identifying data
(`WhatsitNode::new(function, name)`; the closure is opaque). -/
structure WhatsitNode where
  nm : String
  tag : Nat
deriving DecidableEq, Repr

/-- `HBoxInfo`: the kind tag of a horizontal box; `ParIndent` carries the
indentation width (the only variant the verified slice constructs). -/
inductive HBoxInfo where
  | HBox
  | ParIndent (width : Int)
  | ParLine
deriving DecidableEq, Repr

/-- `VBoxInfo`: the kind tag of a vertical box. -/
inductive VBoxInfo where
  | VBox
  | VTop
deriving DecidableEq, Repr

mutual
/-- Horizontal-list nodes (`nodes/horizontal.rs::HNode`), the variants the
verified slice manipulates. -/
inductive HNode where
  | Char (c : Nat)
  | Space
  | Penalty (p : Int)
  | HGlue (s : Skip)
  | HKern (d : Int)
  | Box (b : TeXBox)
  | Whatsit (w : WhatsitNode)
  | Mark (i : Nat) (toks : List Token)

/-- Vertical-list nodes (`nodes/vertical.rs::VNode`). -/
inductive VNode where
  | Penalty (p : Int)
  | VSkip (s : Skip)
  | VKern (d : Int)
  | Box (b : TeXBox)
  | Whatsit (w : WhatsitNode)
  | Mark (i : Nat) (toks : List Token)

/-- Math-list nodes (`nodes/math.rs::MathNode`). -/
inductive MathNode where
  | Atom (a : MathAtom)
  | Whatsit (w : WhatsitNode)
  | MGlue (s : Skip)
  | MKern (d : Int)

/-- A math atom: nucleus with optional sub/superscript lists
(`MathAtom { sup, sub, nucleus }`). -/
inductive MathAtom where
  | mk (nucleus : MathNucleus) (sup : Option (List MathNode)) (sub : Option (List MathNode))

/-- Atom nuclei (`MathNucleus`); `VCenter` carries a vertical child list
with start/end source references and a sizing directive. -/
inductive MathNucleus where
  | Simple (cls : MathClass) (limits : Option Bool) (kernel : MathKernel)
  | VCenter (children : List VNode) (start : Nat) (stop : Nat) (scaled : ToOrSpread)

/-- Kernels of simple nuclei (`MathKernel`); `Char` carries the character
and its font family (`UnresolvedMathFontStyle::of_fam`). -/
inductive MathKernel where
  | Char (char : Nat) (fam : Nat)
  | Empty

/-- A finished box (`nodes/boxes.rs::TeXBox`): horizontal or vertical,
carrying its children and start/end source references. -/
inductive TeXBox where
  | H (children : List HNode) (info : HBoxInfo) (start : Nat) (stop : Nat)
      (preskip : Option Skip)
  | V (children : List VNode) (info : VBoxInfo) (start : Nat) (stop : Nat)
end

/-- Tags of open horizontal list frames
(`nodes/horizontal.rs::HorizontalNodeListType`). -/
inductive HorizontalNodeListType where
  | Paragraph (sourceref : Nat)
  | Box
  | VAlign
deriving DecidableEq, Repr

/-- Tags of open vertical list frames
(`nodes/vertical.rs::VerticalNodeListType`). -/
inductive VerticalNodeListType where
  | Box
  | HAlign
  | Insert (cls : Nat)
  | VAdjust
deriving DecidableEq, Repr

/-- Tags of open math list frames (`nodes/math.rs::MathNodeListType`):
a top-level math list with its display flag, or an inner list feeding a
deferred target continuation (the continuation itself is opaque). -/
inductive MathNodeListType where
  | Top (display : Bool)
  | Target
deriving DecidableEq, Repr

/-- An open list frame (`nodes::NodeList`), stacked in `open_lists`. -/
inductive NodeList where
  | Horizontal (tp : HorizontalNodeListType) (children : List HNode)
  | Vertical (tp : VerticalNodeListType) (children : List VNode)
  | Math (children : List MathNode) (start : Nat) (tp : MathNodeListType)

/-- All the mutable data of the Stomach (`stomach.rs::StomachData`).
Dimensions are scaled points as `Int`; the mark maps are association
lists keyed by mark class. -/
structure StomachData where
  page : List VNode
  open_lists : List NodeList
  pagegoal : Int
  pagetotal : Int
  pagestretch : Int
  pagefilstretch : Int
  pagefillstretch : Int
  pagefilllstretch : Int
  pageshrink : Int
  pagedepth : Int
  prevdepth : Int
  spacefactor : Int
  topmarks : List (Nat × List Token)
  firstmarks : List (Nat × List Token)
  botmarks : List (Nat × List Token)
  splitfirstmarks : List (Nat × List Token)
  splitbotmarks : List (Nat × List Token)
  page_contains_boxes : Bool
  lastpenalty : Int
  prevgraf : Nat
  in_output : Bool
  deadcycles : Nat
  vadjusts : List VNode
  inserts : List (Nat × List VNode)

/-- `StomachData::default()`: `pagegoal` is `Dim::from_sp(i32::MAX)`,
`prevdepth` is `Dim::from_sp(-65536000)` (-1000 pt), `spacefactor` 1000. -/
def StomachData.initial : StomachData where
  page := []
  open_lists := []
  pagegoal := 2147483647
  pagetotal := 0
  pagestretch := 0
  pagefilstretch := 0
  pagefillstretch := 0
  pagefilllstretch := 0
  pageshrink := 0
  pagedepth := 0
  prevdepth := -65536000
  spacefactor := 1000
  topmarks := []
  firstmarks := []
  botmarks := []
  splitfirstmarks := []
  splitbotmarks := []
  page_contains_boxes := false
  lastpenalty := 0
  prevgraf := 0
  in_output := false
  deadcycles := 0
  vadjusts := []
  inserts := []

/-- The `for ls in self.open_lists.iter().rev()` scan inside
`StomachData::mode`: starting at the top of the stack, find the display
flag of the first math frame tagged `Top`. -/
def findTopDisplay : List NodeList → Option Bool
  | [] => none
  | NodeList.Math _ _ (MathNodeListType.Top d) :: _ => some d
  | _ :: rest => findTopDisplay rest

/-- `StomachData::mode`: the current mode, derived from `open_lists`.
The `unreachable!()` hit when a math frame is open but no `Top` frame
exists is modelled as `none`. -/
def StomachData.mode (d : StomachData) : Option TeXMode :=
  match d.open_lists with
  | NodeList.Horizontal (HorizontalNodeListType.Paragraph _) _ :: _ =>
      some TeXMode.Horizontal
  | NodeList.Horizontal _ _ :: _ => some TeXMode.RestrictedHorizontal
  | NodeList.Vertical _ _ :: _ => some TeXMode.InternalVertical
  | NodeList.Math _ _ _ :: _ =>
      match findTopDisplay d.open_lists with
      | some true => some TeXMode.DisplayMath
      | some false => some TeXMode.InlineMath
      | none => none
  | [] => some TeXMode.Vertical

/-- Display flag of the first `Top`-tagged math frame counting from the
top of the stack (the innermost one) - stated via a generic list search,
independently of the recursion inside `mode`. -/
def innermostTopDisplay (l : List NodeList) : Option Bool :=
  l.findSome? fun nl =>
    match nl with
    | NodeList.Math _ _ (MathNodeListType.Top d) => some d
    | _ => none

/-- Display flag of the `Top`-tagged math frame nearest the *base* of the
stack (the outermost one), as the claim under test words it. -/
def outermostTopDisplay (l : List NodeList) : Option Bool :=
  innermostTopDisplay l.reverse

/-- Modelled from the spec: `MathChar` (`nodes/math.rs`, not in the shown
slice): a math character with its class, family and character slot. -/
structure MathChar where
  char : Nat
  cls : MathClass
  fam : Nat
deriving DecidableEq, Repr

/-- Modelled from the spec: `MathChar::from_u32` (not in the shown slice).
Decodes the mathcode into the (class, family, slot) triple: class is
bits 12-14, family bits 8-11, slot the low byte; a character explicitly
known from the triggering token overrides the slot. -/
def MathChar.from_u32 (code : Nat) (char : Option Nat) : MathChar where
  char := char.getD (code % 256)
  cls := MathClass.fromNat ((code / 4096) % 8)
  fam := (code / 256) % 16

/-- Modelled from the spec: `MathChar::to_atom` (not in the shown slice):
wrap the math char as an atom with a simple nucleus and no sub/sup. -/
def MathChar.to_atom (mc : MathChar) : MathAtom :=
  MathAtom.mk (MathNucleus.Simple mc.cls none (MathKernel.Char mc.char mc.fam)) none none

/-- The State interface (`engine/state.rs`, an external collaborator of the
Stomach per the spec), reduced to the parts the verified slice touches.
Symbol tables are total functions so lookups compute. -/
structure TexState where
  grouplevel : Nat
  grouptypes : List GroupType
  parshape : Option (List (Int × Int))
  primInt : String → Int
  primDim : String → Int
  primSkip : String → Skip
  primToks : String → List Token
  intReg : Nat → Int
  dimReg : Nat → Int
  skipReg : Nat → Skip
  muskipReg : Nat → Skip
  currentFont : Nat
  charOrPrim : Token → Option CharOrPrimitive

/-- One call into an external interface (State / Mouth / outputs), recorded
in order.  Ordering claims of the spec are read off this trace. -/
inductive Effect where
  | statePush (g : GroupType)
  | statePop
  | message (s : String)
  | requeueTok (t : Token)
  | pushEvery (nm : String)
  | insertAfter (t : Token)
  | takeParshape
  | setPrimInt (nm : String) (v : Int) (global : Bool)
  | setPrimDim (nm : String) (v : Int) (global : Bool)
  | setPrimSkip (nm : String) (v : Skip) (global : Bool)
  | setPrimMuSkip (nm : String) (v : Skip) (global : Bool)
  | setIntReg (i : Nat) (v : Int) (global : Bool)
  | setDimReg (i : Nat) (v : Int) (global : Bool)
  | setSkipReg (i : Nat) (v : Skip) (global : Bool)
  | setMuSkipReg (i : Nat) (v : Skip) (global : Bool)
  | setFont (f : Nat) (global : Bool)
  | addV (n : VNode)
  | addH (n : HNode)
  | addM (n : MathNode)
  | doOutputCall (p : Option Int)
  | errNotAllowed (nm : String) (m : TeXMode)
  | errGeneral (s : String)

/-- Failure values (`TeXResult` errors); `assertfail` stands for a Rust
`unreachable!()` panic (an internal invariant break). -/
inductive Err where
  | assertfail (msg : String)
  | general (msg : String)
deriving DecidableEq, Repr

/-- The engine references bundle (`EngineReferences`): the Mouth (modelled
by the front of the token stream plus the current source references), the
Stomach (its data and `\afterassignment` slot), the State, and the
diagnostic sink (messages) plus the interface-event trace. -/
structure Engine where
  mouth : List Token
  startRef : Nat
  currentSref : Nat
  sdata : StomachData
  afterassignment : Option Token
  state : TexState
  messages : List String
  trace : List Effect

/-- Result convention: Rust methods mutate `engine` and return
`TeXResult`; here they return the outcome together with the engine as it
stands when the method returns - also on errors, since a Rust `&mut`
borrow keeps its mutations when an `Err` propagates. -/
abbrev TexRes (α : Type) := Except Err α × Engine

/-- `Mouth::requeue`: push a token back to the front of the stream. -/
def requeue (e : Engine) (t : Token) : Engine :=
  { e with mouth := t :: e.mouth, trace := e.trace ++ [Effect.requeueTok t] }

/-- `State::push`: open a group of the given type. -/
def statePush (e : Engine) (g : GroupType) : Engine :=
  { e with
    state := { e.state with grouplevel := e.state.grouplevel + 1,
                            grouptypes := g :: e.state.grouptypes },
    trace := e.trace ++ [Effect.statePush g] }

/-- `State::pop`: close the innermost group. -/
def statePop (e : Engine) : Engine :=
  { e with
    state := { e.state with grouplevel := e.state.grouplevel - 1,
                            grouptypes := e.state.grouptypes.tail },
    trace := e.trace ++ [Effect.statePop] }

/-- `Outputs::message`: report a diagnostic message. -/
def outMessage (e : Engine) (s : String) : Engine :=
  { e with messages := e.messages ++ [s], trace := e.trace ++ [Effect.message s] }

/-- `EngineReferences::push_every(name)` (spec section 6): push the token
list of the primitive parameter to the front of the mouth. -/
def push_every (e : Engine) (nm : String) : Engine :=
  { e with mouth := e.state.primToks nm ++ e.mouth,
           trace := e.trace ++ [Effect.pushEvery nm] }

/-- `State::take_parshape`: remove and drop the current `\parshape`. -/
def take_parshape_drop (e : Engine) : Engine :=
  { e with state := { e.state with parshape := none },
           trace := e.trace ++ [Effect.takeParshape] }

/-- `State::set_primitive_int`. -/
def set_primitive_int (e : Engine) (nm : String) (v : Int) (global : Bool) : Engine :=
  { e with
    state := { e.state with primInt := fun n => if n = nm then v else e.state.primInt n },
    trace := e.trace ++ [Effect.setPrimInt nm v global] }

/-- `State::set_primitive_dim`. -/
def set_primitive_dim (e : Engine) (nm : String) (v : Int) (global : Bool) : Engine :=
  { e with
    state := { e.state with primDim := fun n => if n = nm then v else e.state.primDim n },
    trace := e.trace ++ [Effect.setPrimDim nm v global] }

/-- `State::set_primitive_skip`. -/
def set_primitive_skip (e : Engine) (nm : String) (v : Skip) (global : Bool) : Engine :=
  { e with
    state := { e.state with primSkip := fun n => if n = nm then v else e.state.primSkip n },
    trace := e.trace ++ [Effect.setPrimSkip nm v global] }

/-- `State::set_primitive_muskip` (muskips are kept in their own table in
the State; the slice only threads the value through). -/
def set_primitive_muskip (e : Engine) (nm : String) (v : Skip) (global : Bool) : Engine :=
  { e with trace := e.trace ++ [Effect.setPrimMuSkip nm v global] }

/-- `State::set_int_register`. -/
def set_int_register (e : Engine) (i : Nat) (v : Int) (global : Bool) : Engine :=
  { e with
    state := { e.state with intReg := fun n => if n = i then v else e.state.intReg n },
    trace := e.trace ++ [Effect.setIntReg i v global] }

/-- `State::set_dim_register`. -/
def set_dim_register (e : Engine) (i : Nat) (v : Int) (global : Bool) : Engine :=
  { e with
    state := { e.state with dimReg := fun n => if n = i then v else e.state.dimReg n },
    trace := e.trace ++ [Effect.setDimReg i v global] }

/-- `State::set_skip_register`. -/
def set_skip_register (e : Engine) (i : Nat) (v : Skip) (global : Bool) : Engine :=
  { e with
    state := { e.state with skipReg := fun n => if n = i then v else e.state.skipReg n },
    trace := e.trace ++ [Effect.setSkipReg i v global] }

/-- `State::set_muskip_register`. -/
def set_muskip_register (e : Engine) (i : Nat) (v : Skip) (global : Bool) : Engine :=
  { e with
    state := { e.state with muskipReg := fun n => if n = i then v else e.state.muskipReg n },
    trace := e.trace ++ [Effect.setMuSkipReg i v global] }

/-- `State::set_current_font`. -/
def set_current_font (e : Engine) (f : Nat) (global : Bool) : Engine :=
  { e with state := { e.state with currentFont := f },
           trace := e.trace ++ [Effect.setFont f global] }

/-- Modelled from the spec: `TeXError::not_allowed_in_mode` (not in the
shown slice).  Per spec section 7 a mode violation is recoverable: it is
reported through the diagnostic sink and the current command is abandoned,
so the call returns `Ok`. -/
def not_allowed_in_mode (e : Engine) (nm : String) (m : TeXMode) : Engine :=
  { e with trace := e.trace ++ [Effect.errNotAllowed nm m] }

/-- Modelled from the spec: `methods::insert_afterassignment` (not in the
shown slice).  Spec section 4.2: at most one token is queued; inserting is
idempotent - if the slot is empty nothing happens, otherwise the token
is inserted at the mouth's front and the slot is cleared. -/
def insert_afterassignment (e : Engine) : Engine :=
  match e.afterassignment with
  | some t =>
      { e with afterassignment := none, mouth := t :: e.mouth,
               trace := e.trace ++ [Effect.insertAfter t] }
  | none => e

/-- Modelled from the spec: `methods::do_output` (not in the shown slice).
Spec sections 4.7 and 8.6: sets `in_output`, runs the user's output routine
against `\box255` (abstracted away here), clears `page`, clears
`in_output`; `deadcycles` is incremented when the routine ships nothing
out (the abstracted routine ships nothing). -/
def do_output (e : Engine) (caused_penalty : Option Int) : TexRes Unit :=
  let e1 := { e with sdata := { e.sdata with in_output := true },
                     trace := e.trace ++ [Effect.doOutputCall caused_penalty] }
  (Except.ok (), { e1 with sdata := { e1.sdata with
      page := [], in_output := false, deadcycles := e1.sdata.deadcycles + 1 } })

/-- `Stomach::maybe_do_output`: run the output routine iff not already in
it, no list is open, the page is non-empty, and the page is full or the
`penalty` argument is present (callers pass it only for an explicit
penalty at most -10000). -/
def maybe_do_output (e : Engine) (penalty : Option Int) : TexRes Unit :=
  let d := e.sdata
  if !d.in_output && d.open_lists.isEmpty && !d.page.isEmpty
      && (decide (d.pagetotal ≥ d.pagegoal) || penalty.isSome) then
    do_output e penalty
  else
    (Except.ok (), e)

/-- `Stomach::add_node_m`: push onto the innermost math list;
`unreachable!()` outside math mode. -/
def add_node_m (e : Engine) (n : MathNode) : TexRes Unit :=
  match e.sdata.open_lists with
  | NodeList.Math ch s tp :: rest =>
      (Except.ok (), { e with
        sdata := { e.sdata with open_lists := NodeList.Math (ch ++ [n]) s tp :: rest },
        trace := e.trace ++ [Effect.addM n] })
  | _ => (Except.error (Err.assertfail "add_node_m outside math mode"), e)

/-- `Stomach::add_node_h`: record the penalty in `lastpenalty`, then push
onto the innermost horizontal list; `unreachable!()` outside horizontal
mode. -/
def add_node_h (e : Engine) (n : HNode) : TexRes Unit :=
  let e0 := match n with
    | HNode.Penalty i => { e with sdata := { e.sdata with lastpenalty := i } }
    | _ => e
  match e0.sdata.open_lists with
  | NodeList.Horizontal tp ch :: rest =>
      (Except.ok (), { e0 with
        sdata := { e0.sdata with open_lists := NodeList.Horizontal tp (ch ++ [n]) :: rest },
        trace := e0.trace ++ [Effect.addH n] })
  | _ => (Except.error (Err.assertfail "add_node_h outside horizontal mode"), e0)

/-- Modelled from the spec: the vertical extent a node contributes to the
page totals (the real metrics computation lives outside the slice; no
claim below depends on its value). -/
def vContribution : VNode → Int
  | VNode.VSkip s => s.base
  | VNode.VKern d => d
  | _ => 0

/-- Modelled from the spec: `methods::add_node_v` (not in the shown
slice).  Spec sections 3 and 4.7: onto the innermost vertical frame when
one is open; onto `page` when none is, updating the page totals and
checking the output trigger - with the penalty handed over when the node
is an explicit penalty of at most -10000.  The special vadjust/insert
frames are not modelled (no claim touches them).  Calling it under an open
non-vertical frame is an internal invariant break. -/
def add_node_v (e : Engine) (n : VNode) : TexRes Unit :=
  match e.sdata.open_lists with
  | NodeList.Vertical tp ch :: rest =>
      (Except.ok (), { e with
        sdata := { e.sdata with open_lists := NodeList.Vertical tp (ch ++ [n]) :: rest },
        trace := e.trace ++ [Effect.addV n] })
  | _ :: _ => (Except.error (Err.assertfail "add_node_v outside vertical mode"), e)
  | [] =>
      let e1 := { e with
        sdata := { e.sdata with page := e.sdata.page ++ [n],
                                pagetotal := e.sdata.pagetotal + vContribution n },
        trace := e.trace ++ [Effect.addV n] }
      maybe_do_output e1 (match n with
        | VNode.Penalty p => if p ≤ -10000 then some p else none
        | _ => none)

/-- The `for c in children { Self::add_node_v(engine, c)?; }` loop of
`close_align`, with the `?` short-circuit. -/
def add_nodes_v : Engine → List VNode → TexRes Unit
  | e, [] => (Except.ok (), e)
  | e, c :: cs =>
      match add_node_v e c with
      | (Except.ok _, e1) => add_nodes_v e1 cs
      | (Except.error er, e1) => (Except.error er, e1)

/-- The `for c in children { Self::add_node_h(engine, c); }` loop of
`close_align`. -/
def add_nodes_h : Engine → List HNode → TexRes Unit
  | e, [] => (Except.ok (), e)
  | e, c :: cs =>
      match add_node_h e c with
      | (Except.ok _, e1) => add_nodes_h e1 cs
      | (Except.error er, e1) => (Except.error er, e1)

/-- `Stomach::do_assignment`: run the assignment body, then (only on
success) insert the queued `\afterassignment` token.  The assignment body
is the function pointer the dispatcher hands over; it is a parameter
here. -/
def do_assignment (assign : Engine → Token → Bool → TexRes Unit) (e : Engine)
    (token : Token) (global : Bool) : TexRes Unit :=
  match assign e token global with
  | (Except.ok _, e1) => (Except.ok (), insert_afterassignment e1)
  | (Except.error er, e1) => (Except.error er, e1)

/-- `Stomach::assign_font`: set the current font, insert
`\afterassignment`. -/
def assign_font (e : Engine) (f : Nat) (global : Bool) : TexRes Unit :=
  (Except.ok (), insert_afterassignment (set_current_font e f global))

/-- `Stomach::assign_int_register`.  The Gullet's `read_int` is an
external collaborator (not in the shown slice) and is a parameter: any
fallible reader that may consume input and mutate the engine. -/
def assign_int_register (readInt : Engine → TexRes Int) (e : Engine)
    (register : Nat) (global : Bool) : TexRes Unit :=
  match readInt e with
  | (Except.ok v, e1) =>
      (Except.ok (), insert_afterassignment (set_int_register e1 register v global))
  | (Except.error er, e1) => (Except.error er, e1)

/-- `Stomach::assign_dim_register`. -/
def assign_dim_register (readDim : Engine → TexRes Int) (e : Engine)
    (register : Nat) (global : Bool) : TexRes Unit :=
  match readDim e with
  | (Except.ok v, e1) =>
      (Except.ok (), insert_afterassignment (set_dim_register e1 register v global))
  | (Except.error er, e1) => (Except.error er, e1)

/-- `Stomach::assign_skip_register`. -/
def assign_skip_register (readSkip : Engine → TexRes Skip) (e : Engine)
    (register : Nat) (global : Bool) : TexRes Unit :=
  match readSkip e with
  | (Except.ok v, e1) =>
      (Except.ok (), insert_afterassignment (set_skip_register e1 register v global))
  | (Except.error er, e1) => (Except.error er, e1)

/-- `Stomach::assign_muskip_register`. -/
def assign_muskip_register (readMuSkip : Engine → TexRes Skip) (e : Engine)
    (register : Nat) (global : Bool) : TexRes Unit :=
  match readMuSkip e with
  | (Except.ok v, e1) =>
      (Except.ok (), insert_afterassignment (set_muskip_register e1 register v global))
  | (Except.error er, e1) => (Except.error er, e1)

/-- `Stomach::assign_primitive_int`. -/
def assign_primitive_int (readInt : Engine → TexRes Int) (e : Engine)
    (nm : String) (global : Bool) : TexRes Unit :=
  match readInt e with
  | (Except.ok v, e1) =>
      (Except.ok (), insert_afterassignment (set_primitive_int e1 nm v global))
  | (Except.error er, e1) => (Except.error er, e1)

/-- `Stomach::assign_primitive_dim`. -/
def assign_primitive_dim (readDim : Engine → TexRes Int) (e : Engine)
    (nm : String) (global : Bool) : TexRes Unit :=
  match readDim e with
  | (Except.ok v, e1) =>
      (Except.ok (), insert_afterassignment (set_primitive_dim e1 nm v global))
  | (Except.error er, e1) => (Except.error er, e1)

/-- `Stomach::assign_primitive_skip`. -/
def assign_primitive_skip (readSkip : Engine → TexRes Skip) (e : Engine)
    (nm : String) (global : Bool) : TexRes Unit :=
  match readSkip e with
  | (Except.ok v, e1) =>
      (Except.ok (), insert_afterassignment (set_primitive_skip e1 nm v global))
  | (Except.error er, e1) => (Except.error er, e1)

/-- `Stomach::assign_primitive_muskip`. -/
def assign_primitive_muskip (readMuSkip : Engine → TexRes Skip) (e : Engine)
    (nm : String) (global : Bool) : TexRes Unit :=
  match readMuSkip e with
  | (Except.ok v, e1) =>
      (Except.ok (), insert_afterassignment (set_primitive_muskip e1 nm v global))
  | (Except.error er, e1) => (Except.error er, e1)

/-- A per-line specification for the paragraph builder
(`methods::ParLineSpec`, spec section 4.6): target width with left and
right skips. -/
structure ParLineSpec where
  target : Int
  leftskip : Skip
  rightskip : Skip
deriving DecidableEq, Repr

/-- Modelled from the spec: `ParLineSpec::make` (not in the shown slice).
Spec section 4.5: line specifications are read from the State, respecting
`\hsize`, `\leftskip`, `\rightskip` (the `\parshape` / `\hangindent`
refinements do not matter to any claim below). -/
def ParLineSpec.make (st : TexState) : List ParLineSpec :=
  [⟨st.primDim "hsize", st.primSkip "leftskip", st.primSkip "rightskip"⟩]

/-- An output item of the paragraph splitter (`methods::ParLine`). -/
inductive ParLine where
  | Line (b : TeXBox)
  | Adjust (n : VNode)

/-- Modelled from the spec: `methods::split_paragraph_roughly` (not in the
shown slice).  The first-fit line breaker is abstracted to a single line
holding all children: no claim below depends on where lines break, only on
how `close_paragraph` routes its results. -/
def split_paragraph_roughly (specs : List ParLineSpec) (children : List HNode)
    (start_ref : Nat) : List ParLine :=
  [ParLine.Line (TeXBox.H children HBoxInfo.ParLine start_ref start_ref
      (match specs with | _ => none))]

/-- The `for line in ret` loop of `split_paragraph`: adjusts and lines are
appended to the enclosing vertical list in order. -/
def add_par_lines : Engine → List ParLine → TexRes Unit
  | e, [] => (Except.ok (), e)
  | e, l :: ls =>
      match (match l with
             | ParLine.Adjust n => add_node_v e n
             | ParLine.Line bx => add_node_v e (VNode.Box bx)) with
      | (Except.ok _, e1) => add_par_lines e1 ls
      | (Except.error er, e1) => (Except.error er, e1)

/-- `Stomach::split_paragraph`: append `\parskip` glue when non-zero, run
the splitter, and route its lines/adjusts into the enclosing vertical
list. -/
def split_paragraph (e : Engine) (specs : List ParLineSpec)
    (children : List HNode) (start_ref : Nat) : TexRes Unit :=
  if children.isEmpty then (Except.ok (), e)
  else
    let parskip := e.state.primSkip "parskip"
    match (if parskip ≠ Skip.zero then add_node_v e (VNode.VSkip parskip)
           else (Except.ok (), e)) with
    | (Except.ok _, e1) =>
        add_par_lines e1 (split_paragraph_roughly specs children start_ref)
    | (Except.error er, e1) => (Except.error er, e1)

/-- `Stomach::open_paragraph`: record the start source reference, reset
`prevgraf`, push a Horizontal Paragraph frame; `\indent` appends an
indent box of width `\parindent`, `\noindent` appends nothing, any other
token is requeued and then the indent box is appended; finally the
`\everypar` token list is pushed to the mouth. -/
def open_paragraph (e : Engine) (token : Token) : TexRes Unit :=
  let sref := e.startRef
  let e1 := { e with sdata := { e.sdata with
      prevgraf := 0,
      open_lists := NodeList.Horizontal (HorizontalNodeListType.Paragraph sref) []
                      :: e.sdata.open_lists } }
  let indentBox : HNode := HNode.Box (TeXBox.H [] (HBoxInfo.ParIndent
      (e1.state.primDim "parindent")) sref sref none)
  let step :=
    match e1.state.charOrPrim token with
    | some (CharOrPrimitive.primitive nm) =>
        if nm = "indent" then add_node_h e1 indentBox
        else if nm = "noindent" then (Except.ok (), e1)
        else add_node_h (requeue e1 token) indentBox
    | _ => add_node_h (requeue e1 token) indentBox
  match step with
  | (Except.ok _, e2) => (Except.ok (), push_every e2 "everypar")
  | (Except.error er, e2) => (Except.error er, e2)

/-- `Stomach::close_paragraph`: pop the Paragraph frame; if its list is
empty, drop `\parshape` and reset `\hangafter` and `\hangindent` to their
defaults (non-globally) and return; otherwise build line specs and split
the paragraph.  Popping anything but a Paragraph frame is
`unreachable!()`. -/
def close_paragraph (e : Engine) : TexRes Unit :=
  match e.sdata.open_lists with
  | NodeList.Horizontal (HorizontalNodeListType.Paragraph sourceref) children :: rest =>
      let e1 := { e with sdata := { e.sdata with open_lists := rest } }
      if children.isEmpty then
        let e2 := take_parshape_drop e1
        let e3 := set_primitive_int e2 "hangafter" 0 false
        let e4 := set_primitive_dim e3 "hangindent" 0 false
        (Except.ok (), e4)
      else
        split_paragraph e1 (ParLineSpec.make e1.state) children sourceref
  | _ => (Except.error (Err.assertfail "close_paragraph outside horizontal mode"), e)

/-- `Stomach::open_align`: push an Align group on the State and an
HAlign/VAlign frame on the open lists. -/
def open_align (e : Engine) (_inner : BoxType) (between : BoxType) : Engine :=
  let e1 := statePush e GroupType.Align
  { e1 with sdata := { e1.sdata with open_lists :=
      (if between = BoxType.Vertical then
        NodeList.Vertical VerticalNodeListType.HAlign []
      else
        NodeList.Horizontal HorizontalNodeListType.VAlign []) :: e1.sdata.open_lists } }

/-- `Stomach::close_align`: pop the align frame (anything else is
`unreachable!()`), pop the Align group from the State, then reparent the
children - wrapped as a `VCenter` atom when the enclosing frame is math,
appended one by one otherwise. -/
def close_align (e : Engine) : TexRes Unit :=
  match e.sdata.open_lists with
  | NodeList.Vertical VerticalNodeListType.HAlign children :: rest =>
      let e1 := statePop { e with sdata := { e.sdata with open_lists := rest } }
      match e1.sdata.open_lists with
      | NodeList.Math _ _ _ :: _ =>
          match add_node_m e1 (MathNode.Atom (MathAtom.mk
              (MathNucleus.VCenter children e1.startRef e1.currentSref ToOrSpread.None)
              none none)) with
          | (Except.ok _, e2) => (Except.ok (), e2)
          | (Except.error er, e2) => (Except.error er, e2)
      | _ => add_nodes_v e1 children
  | NodeList.Horizontal HorizontalNodeListType.VAlign children :: rest =>
      let e1 := statePop { e with sdata := { e.sdata with open_lists := rest } }
      add_nodes_h e1 children
  | _ => (Except.error (Err.assertfail "close_align called outside of an align"), e)

/-- The command scopes (`commands::CommandScope`). -/
inductive CommandScope where
  | Any
  | MathOnly
  | SwitchesToVertical
  | SwitchesToHorizontal
  | SwitchesToHorizontalOrMath
deriving DecidableEq, Repr

/-- Map a unit result to the `Ok(false)` the mode switcher returns after
opening/closing a paragraph. -/
def withFalse : TexRes Unit → TexRes Bool
  | (Except.ok _, e) => (Except.ok false, e)
  | (Except.error er, e) => (Except.error er, e)

/-- `Stomach::maybe_switch_mode`: decide, from the command scope and the
current mode, whether to proceed (`true`), to open/close a paragraph and
suppress the command (`false`), or to report a mode violation and
suppress.  The `unreachable!()` inside `mode()` propagates as an internal
error. -/
def maybe_switch_mode (e : Engine) (scope : CommandScope) (token : Token)
    (nm : String) : TexRes Bool :=
  match e.sdata.mode with
  | none => (Except.error (Err.assertfail "mode: no Top math frame"), e)
  | some m =>
    match scope, m with
    | CommandScope.Any, _ => (Except.ok true, e)
    | CommandScope.SwitchesToHorizontal, TeXMode.Horizontal
    | CommandScope.SwitchesToHorizontal, TeXMode.RestrictedHorizontal
    | CommandScope.SwitchesToHorizontalOrMath, TeXMode.Horizontal
    | CommandScope.SwitchesToHorizontalOrMath, TeXMode.RestrictedHorizontal =>
        (Except.ok true, e)
    | CommandScope.SwitchesToVertical, TeXMode.Vertical
    | CommandScope.SwitchesToVertical, TeXMode.InternalVertical =>
        (Except.ok true, e)
    | CommandScope.SwitchesToVertical, TeXMode.Horizontal =>
        withFalse (close_paragraph (requeue e token))
    | CommandScope.MathOnly, TeXMode.InlineMath
    | CommandScope.MathOnly, TeXMode.DisplayMath
    | CommandScope.SwitchesToHorizontalOrMath, TeXMode.InlineMath
    | CommandScope.SwitchesToHorizontalOrMath, TeXMode.DisplayMath =>
        (Except.ok true, e)
    | CommandScope.SwitchesToHorizontal, TeXMode.Vertical
    | CommandScope.SwitchesToHorizontal, TeXMode.InternalVertical
    | CommandScope.SwitchesToHorizontalOrMath, TeXMode.Vertical
    | CommandScope.SwitchesToHorizontalOrMath, TeXMode.InternalVertical =>
        withFalse (open_paragraph e token)
    | _, _ => (Except.ok false, not_allowed_in_mode e nm m)

/-- The `while engine.state.get_group_level() > 0` pop loop of `flush`,
with fuel: each `State::pop` decrements the level by exactly one. -/
def popAll : Nat → Engine → Engine
  | 0, e => e
  | n + 1, e => popAll n (statePop e)

/-- `Stomach::flush`: at end of document, take the open lists; when some
were open, report the unclosed group(s) and pop every State group; then
add a forced-break penalty through `add_node_v` and clear the page. -/
def flush (e : Engine) : TexRes Unit :=
  let open_groups := e.sdata.open_lists
  let e0 := { e with sdata := { e.sdata with open_lists := [] } }
  let e1 :=
    if open_groups.isEmpty then e0
    else
      let ea := outMessage e0 ("(\\end occurred inside a group at level "
          ++ toString e0.state.grouplevel ++ ")")
      let eb := match ea.state.grouptypes.head? with
        | some g => outMessage ea ("## " ++ toString g ++ " group")
        | none => ea
      popAll eb.state.grouplevel eb
  match add_node_v e1 (VNode.Penalty (-10000)) with
  | (Except.ok _, e2) => (Except.ok (), { e2 with sdata := { e2.sdata with page := [] } })
  | (Except.error er, e2) => (Except.error er, e2)

/-- Modelled from the spec: `BoxInfo` (not in the shown slice): the data
needed to open a box frame, tagged by its family. -/
inductive BoxInfo where
  | H (info : HBoxInfo) (scaled : ToOrSpread)
  | V (info : VBoxInfo) (scaled : ToOrSpread)
deriving DecidableEq, Repr

/-- Modelled from the spec: `BoxInfo::open_list` (not in the shown slice):
the fresh frame a box opening pushes, of the inner type. -/
def BoxInfo.open_list (bi : BoxInfo) (_sref : Nat) : NodeList :=
  match bi with
  | BoxInfo.H _ _ => NodeList.Horizontal HorizontalNodeListType.Box []
  | BoxInfo.V _ _ => NodeList.Vertical VerticalNodeListType.Box []

/-- Modelled from the spec: `methods::add_box` (not in the shown slice).
Spec section 4.2: a finished box is appended through the variant matching
the current mode (the `BoxTarget::none()` case). -/
def add_box (e : Engine) (b : TeXBox) : TexRes Unit :=
  match e.sdata.mode with
  | some TeXMode.Vertical | some TeXMode.InternalVertical => add_node_v e (VNode.Box b)
  | some TeXMode.Horizontal | some TeXMode.RestrictedHorizontal => add_node_h e (HNode.Box b)
  | some TeXMode.InlineMath | some TeXMode.DisplayMath =>
      add_node_m e (MathNode.Atom (MathAtom.mk
        (match b with
         | TeXBox.V ch _ s t => MathNucleus.VCenter ch s t ToOrSpread.None
         | TeXBox.H _ _ _ _ _ => MathNucleus.Simple MathClass.Ord none MathKernel.Empty)
        none none))
  | none => (Except.error (Err.assertfail "mode: no Top math frame"), e)

/-- `Stomach::do_box`: run the box-producing callback; a finished box is
appended, `Left(None)` does nothing, a `BoxInfo` opens a fresh frame. -/
def do_box (bx : Engine → Token → TexRes (Sum (Option TeXBox) BoxInfo)) (e : Engine)
    (token : Token) : TexRes Unit :=
  match bx e token with
  | (Except.ok (Sum.inl (some b)), e1) => add_box e1 b
  | (Except.ok (Sum.inl none), e1) => (Except.ok (), e1)
  | (Except.ok (Sum.inr bi), e1) =>
      (Except.ok (), { e1 with sdata := { e1.sdata with
        open_lists := bi.open_list e1.startRef :: e1.sdata.open_lists } })
  | (Except.error er, e1) => (Except.error er, e1)

/-- `Stomach::do_mathchar`: mathcode 32768 on a character token requeues
the character as an active token; any other case builds a `MathChar` from
the code (keeping the token's character when there is one) and adds it as
an atom to the current math list. -/
def do_mathchar (e : Engine) (code : Nat) (token : Option Token) : TexRes Unit :=
  match token with
  | some (Token.character ch _) =>
      if code = 32768 then
        (Except.ok (), requeue e (Token.character ch CommandCode.Active))
      else
        add_node_m e (MathNode.Atom (MathChar.from_u32 code (some ch)).to_atom)
  | _ => add_node_m e (MathNode.Atom (MathChar.from_u32 code none).to_atom)

/-- The indent box `open_paragraph` appends: an empty horizontal box whose
info records the current `\parindent` width. -/
def parIndentBox (e : Engine) : HNode :=
  HNode.Box (TeXBox.H [] (HBoxInfo.ParIndent (e.state.primDim "parindent"))
    e.startRef e.startRef none)

/-- The atom `close_align` deposits in a math list: a `VCenter` nucleus
holding the align's children, with no sub/superscript. -/
def vcenterAtom (e : Engine) (children : List VNode) : MathNode :=
  MathNode.Atom (MathAtom.mk
    (MathNucleus.VCenter children e.startRef e.currentSref ToOrSpread.None) none none)

/-- A State with empty symbol tables, for concrete evaluations. -/
def state0 : TexState where
  grouplevel := 0
  grouptypes := []
  parshape := none
  primInt := fun _ => 0
  primDim := fun _ => 0
  primSkip := fun _ => Skip.zero
  primToks := fun _ => []
  intReg := fun _ => 0
  dimReg := fun _ => 0
  skipReg := fun _ => Skip.zero
  muskipReg := fun _ => Skip.zero
  currentFont := 0
  charOrPrim := fun _ => none

/-- A freshly initialised engine, for concrete evaluations. -/
def engine0 : Engine where
  mouth := []
  startRef := 0
  currentSref := 0
  sdata := StomachData.initial
  afterassignment := none
  state := state0
  messages := []
  trace := []

/-- Stomach data with two nested `Top`-tagged math frames whose display
flags differ: the outermost (base) one is display, the innermost (top)
one is inline. -/
def dataTwoTops : StomachData :=
  { StomachData.initial with open_lists :=
      [NodeList.Math [] 0 (MathNodeListType.Top false),
       NodeList.Math [] 0 (MathNodeListType.Top true)] }

/-- An engine whose page is non-empty and overfull. -/
def engineFullPage : Engine :=
  { engine0 with sdata :=
      { StomachData.initial with page := [VNode.VKern 5], pagetotal := 10, pagegoal := 5 } }

/-- An engine in horizontal mode (one open paragraph frame). -/
def engineHMode : Engine :=
  { engine0 with sdata :=
      { StomachData.initial with open_lists :=
          [NodeList.Horizontal (HorizontalNodeListType.Paragraph 0) []] } }

/-- An engine whose `\afterassignment` slot holds a token. -/
def engineSlotAlpha : Engine :=
  { engine0 with afterassignment := some (Token.cs "alpha") }

/-- A State resolving the control sequence `indent` to the `\indent`
primitive. -/
def stateIndent : TexState :=
  { state0 with charOrPrim := fun t =>
      if t = Token.cs "indent" then some (CharOrPrimitive.primitive "indent") else none }

/-- An engine in vertical mode with `stateIndent`. -/
def engineIndent : Engine := { engine0 with state := stateIndent }

/-- An engine whose only open list is an empty paragraph frame. -/
def engineEmptyPar : Engine :=
  { engine0 with sdata :=
      { StomachData.initial with open_lists :=
          [NodeList.Horizontal (HorizontalNodeListType.Paragraph 3) []] } }

/-- An engine inside an `\halign` whose interior already holds a kern,
enclosed by a vertical box frame, with the Align group open. -/
def engineAlignV : Engine :=
  { engine0 with
    sdata := { StomachData.initial with open_lists :=
        [NodeList.Vertical VerticalNodeListType.HAlign [VNode.VKern 7],
         NodeList.Vertical VerticalNodeListType.Box []] },
    state := { state0 with grouplevel := 1, grouptypes := [GroupType.Align] } }

/-- An engine reaching end of document with one unclosed group and box. -/
def engineUnclosed : Engine :=
  { engine0 with
    sdata := { StomachData.initial with open_lists :=
        [NodeList.Vertical VerticalNodeListType.Box []] },
    state := { state0 with grouplevel := 1, grouptypes := [GroupType.Simple] } }

/-- An engine inside an inline math list. -/
def engineMathTop : Engine :=
  { engine0 with sdata :=
      { StomachData.initial with open_lists :=
          [NodeList.Math [] 0 (MathNodeListType.Top false)] } }

theorem findTopDisplay_eq_innermost (l : List NodeList) :
    findTopDisplay l = innermostTopDisplay l := by
  induction l with
  | nil => rfl
  | cons x rest ih =>
    cases x with
    | Horizontal tp ch =>
        simpa [findTopDisplay, innermostTopDisplay, List.findSome?_cons] using ih
    | Vertical tp ch =>
        simpa [findTopDisplay, innermostTopDisplay, List.findSome?_cons] using ih
    | Math ch s tp =>
        cases tp with
        | Top d => simp [findTopDisplay, innermostTopDisplay, List.findSome?_cons]
        | Target =>
            simpa [findTopDisplay, innermostTopDisplay, List.findSome?_cons] using ih

/-- C2 counterexample: the claim reads the display flag off the
*outermost* `Top`-tagged math frame; the code walks `open_lists` from the
top of the stack and stops at the first (= innermost) `Top` frame.  With
two nested `Top` frames - the outermost display, the innermost inline -
the outermost flag is `true` yet `mode` yields inline math, not display
math. -/
theorem mode_outermost_top_refuted :
    dataTwoTops.open_lists.head?
      = some (NodeList.Math [] 0 (MathNodeListType.Top false))
    ∧ outermostTopDisplay dataTwoTops.open_lists = some true
    ∧ dataTwoTops.mode = some TeXMode.InlineMath
    ∧ dataTwoTops.mode ≠ some TeXMode.DisplayMath := by
  refine ⟨rfl, rfl, rfl, ?_⟩
  intro h
  have h2 : TeXMode.InlineMath = TeXMode.DisplayMath := by
    have : dataTwoTops.mode = some TeXMode.InlineMath := rfl
    exact Option.some.inj (this ▸ h)
  cases h2

/-- C2 (amended): `mode()` is derived from `open_lists`: empty stack is
vertical; a `Paragraph`-tagged horizontal frame on top is horizontal; any
other horizontal frame on top is restricted horizontal; a vertical frame
on top is internal vertical; with a math frame on top, the display flag of
the *innermost* (nearest the top of the stack) `Top`-tagged math frame
decides between display and inline math. -/
theorem mode_derivation_amended (d : StomachData) :
    (d.open_lists = [] → d.mode = some TeXMode.Vertical)
    ∧ (∀ sref ch rest,
        d.open_lists = NodeList.Horizontal (HorizontalNodeListType.Paragraph sref) ch :: rest →
        d.mode = some TeXMode.Horizontal)
    ∧ (∀ tp ch rest, d.open_lists = NodeList.Horizontal tp ch :: rest →
        (∀ s, tp ≠ HorizontalNodeListType.Paragraph s) →
        d.mode = some TeXMode.RestrictedHorizontal)
    ∧ (∀ tp ch rest, d.open_lists = NodeList.Vertical tp ch :: rest →
        d.mode = some TeXMode.InternalVertical)
    ∧ (∀ ch s tp rest b, d.open_lists = NodeList.Math ch s tp :: rest →
        innermostTopDisplay d.open_lists = some b →
        d.mode = some (if b then TeXMode.DisplayMath else TeXMode.InlineMath)) := by
  refine ⟨?_, ?_, ?_, ?_, ?_⟩
  · intro h; simp [StomachData.mode, h]
  · intro sref ch rest h; simp [StomachData.mode, h]
  · intro tp ch rest h hne
    cases tp with
    | Paragraph s => exact absurd rfl (hne s)
    | Box => simp [StomachData.mode, h]
    | VAlign => simp [StomachData.mode, h]
  · intro tp ch rest h; simp [StomachData.mode, h]
  · intro ch s tp rest b h hb
    rw [← findTopDisplay_eq_innermost, h] at hb
    cases b with
    | false => simp [StomachData.mode, h, hb]
    | true => simp [StomachData.mode, h, hb]

/-- C2 amended, instantiated: inside a single inline math list the mode is
inline math. -/
theorem mode_derivation_amended_instance :
    engineMathTop.sdata.mode = some TeXMode.InlineMath := by
  have h := (mode_derivation_amended engineMathTop.sdata).2.2.2.2
      [] 0 (MathNodeListType.Top false) [] false rfl rfl
  simpa using h

/-- C1: under the documented caller contract (the `penalty` argument is
absent or an explicit penalty at most -10000), `maybe_do_output` invokes
`do_output` exactly when `in_output` is off, no list is open, the page is
non-empty, and the page is full or such a penalty was just added; in every
other case it returns `Ok` with the engine untouched. -/
theorem maybe_do_output_fires_iff (e : Engine) (p : Option Int)
    (hp : p = none ∨ ∃ q, p = some q ∧ q ≤ -10000) :
    (maybe_do_output e p = do_output e p ↔
      (e.sdata.in_output = false ∧ e.sdata.open_lists = [] ∧ e.sdata.page ≠ []
        ∧ (e.sdata.pagetotal ≥ e.sdata.pagegoal ∨ ∃ q, p = some q ∧ q ≤ -10000)))
    ∧ (¬ (e.sdata.in_output = false ∧ e.sdata.open_lists = [] ∧ e.sdata.page ≠ []
        ∧ (e.sdata.pagetotal ≥ e.sdata.pagegoal ∨ ∃ q, p = some q ∧ q ≤ -10000)) →
      maybe_do_output e p = (Except.ok (), e)) := by
  have hsome : (p.isSome = true) ↔ (∃ q, p = some q ∧ q ≤ -10000) := by
    rcases hp with h | ⟨q, hq, hle⟩
    · subst h; simp
    · subst hq; simp [hle]
  have hcond : (!e.sdata.in_output && e.sdata.open_lists.isEmpty && !e.sdata.page.isEmpty
      && (decide (e.sdata.pagetotal ≥ e.sdata.pagegoal) || p.isSome)) = true
      ↔ (e.sdata.in_output = false ∧ e.sdata.open_lists = [] ∧ e.sdata.page ≠ []
        ∧ (e.sdata.pagetotal ≥ e.sdata.pagegoal ∨ ∃ q, p = some q ∧ q ≤ -10000)) := by
    simp [List.isEmpty_iff, hsome, and_assoc]
  have hlen : (do_output e p).2.trace.length = e.trace.length + 1 := by
    simp [do_output]
  constructor
  · constructor
    · intro h
      by_cases hB : (!e.sdata.in_output && e.sdata.open_lists.isEmpty
          && !e.sdata.page.isEmpty
          && (decide (e.sdata.pagetotal ≥ e.sdata.pagegoal) || p.isSome)) = true
      · exact hcond.mp hB
      · exfalso
        have hq : maybe_do_output e p = (Except.ok (), e) := by
          simp only [maybe_do_output]
          rw [if_neg hB]
        rw [hq] at h
        have : e.trace.length = e.trace.length + 1 := by
          conv_lhs => rw [show e = (Except.ok (), e).2 from rfl, h]
          exact hlen
        omega
    · intro hc
      have hB := hcond.mpr hc
      simp only [maybe_do_output]
      rw [if_pos hB]
  · intro hc
    have hB : ¬ (!e.sdata.in_output && e.sdata.open_lists.isEmpty
        && !e.sdata.page.isEmpty
        && (decide (e.sdata.pagetotal ≥ e.sdata.pagegoal) || p.isSome)) = true := by
      intro hB; exact hc (hcond.mp hB)
    simp only [maybe_do_output]
    rw [if_neg hB]

/-- C1, instantiated: on a non-empty, overfull page with no open list and
no penalty argument, the output routine is invoked. -/
theorem maybe_do_output_fires_iff_instance :
    maybe_do_output engineFullPage none = do_output engineFullPage none := by
  exact (maybe_do_output_fires_iff engineFullPage none (Or.inl rfl)).1.mpr
    ⟨rfl, rfl, by simp [engineFullPage, engine0, StomachData.initial], Or.inl (by decide)⟩

/-- C3: the `maybe_switch_mode` decision table.  `Any` always proceeds;
`SwitchesToVertical` proceeds in (internal) vertical mode and, in
horizontal mode, requeues the token, closes the paragraph and suppresses;
`SwitchesToHorizontal` / `SwitchesToHorizontalOrMath` proceed in both
horizontal modes and, in (internal) vertical mode, open a paragraph with
the token and suppress; `MathOnly` and `SwitchesToHorizontalOrMath`
proceed in both math modes; every remaining scope-mode pair surfaces
`not_allowed_in_mode(name, mode)` and suppresses. -/
theorem maybe_switch_mode_table (e : Engine) (tok : Token) (nm : String) (m : TeXMode)
    (hm : e.sdata.mode = some m) :
    (maybe_switch_mode e CommandScope.Any tok nm = (Except.ok true, e))
    ∧ ((m = TeXMode.Vertical ∨ m = TeXMode.InternalVertical) →
        maybe_switch_mode e CommandScope.SwitchesToVertical tok nm = (Except.ok true, e))
    ∧ (m = TeXMode.Horizontal →
        maybe_switch_mode e CommandScope.SwitchesToVertical tok nm
          = withFalse (close_paragraph (requeue e tok)))
    ∧ ((m = TeXMode.RestrictedHorizontal ∨ m = TeXMode.InlineMath ∨ m = TeXMode.DisplayMath) →
        maybe_switch_mode e CommandScope.SwitchesToVertical tok nm
          = (Except.ok false, not_allowed_in_mode e nm m))
    ∧ ((m = TeXMode.Horizontal ∨ m = TeXMode.RestrictedHorizontal) →
        maybe_switch_mode e CommandScope.SwitchesToHorizontal tok nm = (Except.ok true, e)
        ∧ maybe_switch_mode e CommandScope.SwitchesToHorizontalOrMath tok nm
            = (Except.ok true, e))
    ∧ ((m = TeXMode.Vertical ∨ m = TeXMode.InternalVertical) →
        maybe_switch_mode e CommandScope.SwitchesToHorizontal tok nm
          = withFalse (open_paragraph e tok)
        ∧ maybe_switch_mode e CommandScope.SwitchesToHorizontalOrMath tok nm
            = withFalse (open_paragraph e tok))
    ∧ ((m = TeXMode.InlineMath ∨ m = TeXMode.DisplayMath) →
        maybe_switch_mode e CommandScope.MathOnly tok nm = (Except.ok true, e)
        ∧ maybe_switch_mode e CommandScope.SwitchesToHorizontalOrMath tok nm
            = (Except.ok true, e)
        ∧ maybe_switch_mode e CommandScope.SwitchesToHorizontal tok nm
            = (Except.ok false, not_allowed_in_mode e nm m))
    ∧ ((m = TeXMode.Vertical ∨ m = TeXMode.InternalVertical ∨ m = TeXMode.Horizontal
          ∨ m = TeXMode.RestrictedHorizontal) →
        maybe_switch_mode e CommandScope.MathOnly tok nm
          = (Except.ok false, not_allowed_in_mode e nm m)) := by
  cases m <;> simp [maybe_switch_mode, hm]

/-- C3, instantiated: in horizontal mode a `SwitchesToVertical` command
requeues its token and closes the paragraph, and an `Any`-scoped command
proceeds. -/
theorem maybe_switch_mode_table_instance :
    maybe_switch_mode engineHMode CommandScope.SwitchesToVertical (Token.cs "par") "end"
      = withFalse (close_paragraph (requeue engineHMode (Token.cs "par")))
    ∧ maybe_switch_mode engineHMode CommandScope.Any (Token.cs "par") "end"
      = (Except.ok true, engineHMode) := by
  have h := maybe_switch_mode_table engineHMode (Token.cs "par") "end" TeXMode.Horizontal rfl
  exact ⟨h.2.2.1 rfl, h.1⟩

/-- C4: the `\afterassignment` discipline.  The insertion primitive moves
the queued token (if any) to the mouth's front and clears the slot,
touching nothing else, and is a no-op on an empty slot.  Every assignment
entry point performs exactly this insertion once, after the assignment
body (and its value reading) succeeded; the State setters themselves never
touch the slot; and when the body or the reading fails, the entry point
returns that failure with the engine exactly as the failing step left it -
the slot is not consumed. -/
theorem afterassignment_discipline :
    (∀ e t, e.afterassignment = some t →
        insert_afterassignment e
          = { e with afterassignment := none, mouth := t :: e.mouth,
                     trace := e.trace ++ [Effect.insertAfter t] })
    ∧ (∀ e, e.afterassignment = none → insert_afterassignment e = e)
    ∧ (∀ assign e tok g e1, assign e tok g = (Except.ok (), e1) →
        do_assignment assign e tok g = (Except.ok (), insert_afterassignment e1))
    ∧ (∀ assign e tok g er e1, assign e tok g = (Except.error er, e1) →
        do_assignment assign e tok g = (Except.error er, e1))
    ∧ (∀ e f g, assign_font e f g
          = (Except.ok (), insert_afterassignment (set_current_font e f g))
        ∧ (set_current_font e f g).afterassignment = e.afterassignment)
    ∧ (∀ ri e r g v e1, ri e = (Except.ok v, e1) →
        assign_int_register ri e r g
          = (Except.ok (), insert_afterassignment (set_int_register e1 r v g))
        ∧ (set_int_register e1 r v g).afterassignment = e1.afterassignment)
    ∧ (∀ ri e r g er e1, ri e = (Except.error er, e1) →
        assign_int_register ri e r g = (Except.error er, e1))
    ∧ (∀ rd e r g v e1, rd e = (Except.ok v, e1) →
        assign_dim_register rd e r g
          = (Except.ok (), insert_afterassignment (set_dim_register e1 r v g))
        ∧ (set_dim_register e1 r v g).afterassignment = e1.afterassignment)
    ∧ (∀ rd e r g er e1, rd e = (Except.error er, e1) →
        assign_dim_register rd e r g = (Except.error er, e1))
    ∧ (∀ rs e r g v e1, rs e = (Except.ok v, e1) →
        assign_skip_register rs e r g
          = (Except.ok (), insert_afterassignment (set_skip_register e1 r v g))
        ∧ (set_skip_register e1 r v g).afterassignment = e1.afterassignment)
    ∧ (∀ rs e r g er e1, rs e = (Except.error er, e1) →
        assign_skip_register rs e r g = (Except.error er, e1))
    ∧ (∀ rm e r g v e1, rm e = (Except.ok v, e1) →
        assign_muskip_register rm e r g
          = (Except.ok (), insert_afterassignment (set_muskip_register e1 r v g))
        ∧ (set_muskip_register e1 r v g).afterassignment = e1.afterassignment)
    ∧ (∀ rm e r g er e1, rm e = (Except.error er, e1) →
        assign_muskip_register rm e r g = (Except.error er, e1))
    ∧ (∀ ri e nm g v e1, ri e = (Except.ok v, e1) →
        assign_primitive_int ri e nm g
          = (Except.ok (), insert_afterassignment (set_primitive_int e1 nm v g))
        ∧ (set_primitive_int e1 nm v g).afterassignment = e1.afterassignment)
    ∧ (∀ ri e nm g er e1, ri e = (Except.error er, e1) →
        assign_primitive_int ri e nm g = (Except.error er, e1))
    ∧ (∀ rd e nm g v e1, rd e = (Except.ok v, e1) →
        assign_primitive_dim rd e nm g
          = (Except.ok (), insert_afterassignment (set_primitive_dim e1 nm v g))
        ∧ (set_primitive_dim e1 nm v g).afterassignment = e1.afterassignment)
    ∧ (∀ rd e nm g er e1, rd e = (Except.error er, e1) →
        assign_primitive_dim rd e nm g = (Except.error er, e1))
    ∧ (∀ rs e nm g v e1, rs e = (Except.ok v, e1) →
        assign_primitive_skip rs e nm g
          = (Except.ok (), insert_afterassignment (set_primitive_skip e1 nm v g))
        ∧ (set_primitive_skip e1 nm v g).afterassignment = e1.afterassignment)
    ∧ (∀ rs e nm g er e1, rs e = (Except.error er, e1) →
        assign_primitive_skip rs e nm g = (Except.error er, e1))
    ∧ (∀ rm e nm g v e1, rm e = (Except.ok v, e1) →
        assign_primitive_muskip rm e nm g
          = (Except.ok (), insert_afterassignment (set_primitive_muskip e1 nm v g))
        ∧ (set_primitive_muskip e1 nm v g).afterassignment = e1.afterassignment)
    ∧ (∀ rm e nm g er e1, rm e = (Except.error er, e1) →
        assign_primitive_muskip rm e nm g = (Except.error er, e1)) := by
  refine ⟨?_, ?_, ?_, ?_, ?_, ?_, ?_, ?_, ?_, ?_, ?_, ?_, ?_, ?_, ?_, ?_, ?_, ?_, ?_, ?_, ?_⟩
  · intro e t h; simp [insert_afterassignment, h]
  · intro e h; simp [insert_afterassignment, h]
  · intro assign e tok g e1 h; simp [do_assignment, h]
  · intro assign e tok g er e1 h; simp [do_assignment, h]
  · intro e f g; exact ⟨rfl, rfl⟩
  · intro ri e r g v e1 h; exact ⟨by simp [assign_int_register, h], rfl⟩
  · intro ri e r g er e1 h; simp [assign_int_register, h]
  · intro rd e r g v e1 h; exact ⟨by simp [assign_dim_register, h], rfl⟩
  · intro rd e r g er e1 h; simp [assign_dim_register, h]
  · intro rs e r g v e1 h; exact ⟨by simp [assign_skip_register, h], rfl⟩
  · intro rs e r g er e1 h; simp [assign_skip_register, h]
  · intro rm e r g v e1 h; exact ⟨by simp [assign_muskip_register, h], rfl⟩
  · intro rm e r g er e1 h; simp [assign_muskip_register, h]
  · intro ri e nm g v e1 h; exact ⟨by simp [assign_primitive_int, h], rfl⟩
  · intro ri e nm g er e1 h; simp [assign_primitive_int, h]
  · intro rd e nm g v e1 h; exact ⟨by simp [assign_primitive_dim, h], rfl⟩
  · intro rd e nm g er e1 h; simp [assign_primitive_dim, h]
  · intro rs e nm g v e1 h; exact ⟨by simp [assign_primitive_skip, h], rfl⟩
  · intro rs e nm g er e1 h; simp [assign_primitive_skip, h]
  · intro rm e nm g v e1 h; exact ⟨by simp [assign_primitive_muskip, h], rfl⟩
  · intro rm e nm g er e1 h; simp [assign_primitive_muskip, h]

/-- C4, instantiated: a count-register assignment whose reader yields 5
inserts the queued token at the mouth's front and empties the slot. -/
theorem afterassignment_discipline_instance :
    assign_int_register (fun e => (Except.ok 5, e)) engineSlotAlpha 0 false
      = (Except.ok (),
          insert_afterassignment (set_int_register engineSlotAlpha 0 5 false))
    ∧ (insert_afterassignment (set_int_register engineSlotAlpha 0 5 false)).afterassignment
        = none
    ∧ (insert_afterassignment (set_int_register engineSlotAlpha 0 5 false)).mouth
        = Token.cs "alpha" :: engineSlotAlpha.mouth := by
  have h := afterassignment_discipline.2.2.2.2.2.1
      (fun e => (Except.ok 5, e)) engineSlotAlpha 0 false 5 engineSlotAlpha rfl
  exact ⟨h.1, rfl, rfl⟩

/-- C5: `open_paragraph` in (internal) vertical mode records the current
start source reference on the new frame, resets `prevgraf` to 0, pushes a
Horizontal Paragraph frame; a token resolving to the `\indent` primitive
appends an indent box of width `\parindent`, `\noindent` appends nothing,
and any other token is requeued before the indent box is appended; finally
the `\everypar` token list is pushed to the mouth. -/
theorem open_paragraph_effects (e : Engine) (tok : Token)
    (hv : e.sdata.mode = some TeXMode.Vertical
        ∨ e.sdata.mode = some TeXMode.InternalVertical) :
    (e.state.charOrPrim tok = some (CharOrPrimitive.primitive "indent") →
      open_paragraph e tok = (Except.ok (), { e with
        sdata := { e.sdata with
          prevgraf := 0,
          open_lists := NodeList.Horizontal (HorizontalNodeListType.Paragraph e.startRef)
              [parIndentBox e] :: e.sdata.open_lists },
        mouth := e.state.primToks "everypar" ++ e.mouth,
        trace := e.trace ++ [Effect.addH (parIndentBox e), Effect.pushEvery "everypar"] }))
    ∧ (e.state.charOrPrim tok = some (CharOrPrimitive.primitive "noindent") →
      open_paragraph e tok = (Except.ok (), { e with
        sdata := { e.sdata with
          prevgraf := 0,
          open_lists := NodeList.Horizontal (HorizontalNodeListType.Paragraph e.startRef)
              [] :: e.sdata.open_lists },
        mouth := e.state.primToks "everypar" ++ e.mouth,
        trace := e.trace ++ [Effect.pushEvery "everypar"] }))
    ∧ (∀ nm, e.state.charOrPrim tok = some (CharOrPrimitive.primitive nm) →
        nm ≠ "indent" → nm ≠ "noindent" →
      open_paragraph e tok = (Except.ok (), { e with
        sdata := { e.sdata with
          prevgraf := 0,
          open_lists := NodeList.Horizontal (HorizontalNodeListType.Paragraph e.startRef)
              [parIndentBox e] :: e.sdata.open_lists },
        mouth := e.state.primToks "everypar" ++ tok :: e.mouth,
        trace := e.trace ++ [Effect.requeueTok tok, Effect.addH (parIndentBox e),
                             Effect.pushEvery "everypar"] }))
    ∧ (e.state.charOrPrim tok = none →
      open_paragraph e tok = (Except.ok (), { e with
        sdata := { e.sdata with
          prevgraf := 0,
          open_lists := NodeList.Horizontal (HorizontalNodeListType.Paragraph e.startRef)
              [parIndentBox e] :: e.sdata.open_lists },
        mouth := e.state.primToks "everypar" ++ tok :: e.mouth,
        trace := e.trace ++ [Effect.requeueTok tok, Effect.addH (parIndentBox e),
                             Effect.pushEvery "everypar"] }))
    ∧ (∀ c cc, e.state.charOrPrim tok = some (CharOrPrimitive.char c cc) →
      open_paragraph e tok = (Except.ok (), { e with
        sdata := { e.sdata with
          prevgraf := 0,
          open_lists := NodeList.Horizontal (HorizontalNodeListType.Paragraph e.startRef)
              [parIndentBox e] :: e.sdata.open_lists },
        mouth := e.state.primToks "everypar" ++ tok :: e.mouth,
        trace := e.trace ++ [Effect.requeueTok tok, Effect.addH (parIndentBox e),
                             Effect.pushEvery "everypar"] })) := by
  refine ⟨?_, ?_, ?_, ?_, ?_⟩
  · intro h
    simp [open_paragraph, add_node_h, requeue, push_every, parIndentBox, h]
  · intro h
    simp [open_paragraph, add_node_h, requeue, push_every, parIndentBox, h]
  · intro nm h h1 h2
    simp [open_paragraph, add_node_h, requeue, push_every, parIndentBox, h, h1, h2]
  · intro h
    simp [open_paragraph, add_node_h, requeue, push_every, parIndentBox, h]
  · intro c cc h
    simp [open_paragraph, add_node_h, requeue, push_every, parIndentBox, h]

/-- C5, instantiated: opening a paragraph with the `\indent` control
sequence pushes a Paragraph frame holding the indent box and then pushes
`\everypar`. -/
theorem open_paragraph_effects_instance :
    open_paragraph engineIndent (Token.cs "indent") = (Except.ok (), { engineIndent with
      sdata := { engineIndent.sdata with
        prevgraf := 0,
        open_lists := NodeList.Horizontal (HorizontalNodeListType.Paragraph 0)
            [parIndentBox engineIndent] :: engineIndent.sdata.open_lists },
      mouth := engineIndent.state.primToks "everypar" ++ engineIndent.mouth,
      trace := engineIndent.trace ++ [Effect.addH (parIndentBox engineIndent),
                                      Effect.pushEvery "everypar"] }) := by
  exact (open_paragraph_effects engineIndent (Token.cs "indent") (Or.inl rfl)).1 rfl

/-- C6: popping an *empty* Paragraph frame only drops `\parshape` from the
State and resets `\hangafter` and `\hangindent` to their defaults,
non-globally; the trace shows exactly these three State calls (so no node
is appended anywhere and no `\parskip` is added), the remaining Stomach
data is unchanged apart from the popped frame, and mouth, messages and the
`\afterassignment` slot are untouched. -/
theorem close_paragraph_empty_effects (e : Engine) (sref : Nat) (rest : List NodeList)
    (h : e.sdata.open_lists
        = NodeList.Horizontal (HorizontalNodeListType.Paragraph sref) [] :: rest) :
    ∃ e2, close_paragraph e = (Except.ok (), e2)
      ∧ e2.sdata = { e.sdata with open_lists := rest }
      ∧ e2.mouth = e.mouth
      ∧ e2.messages = e.messages
      ∧ e2.afterassignment = e.afterassignment
      ∧ e2.state.parshape = none
      ∧ e2.state.primInt "hangafter" = 0
      ∧ e2.state.primDim "hangindent" = 0
      ∧ (∀ nm, nm ≠ "hangafter" → e2.state.primInt nm = e.state.primInt nm)
      ∧ (∀ nm, nm ≠ "hangindent" → e2.state.primDim nm = e.state.primDim nm)
      ∧ e2.state.grouplevel = e.state.grouplevel
      ∧ e2.trace = e.trace ++ [Effect.takeParshape,
          Effect.setPrimInt "hangafter" 0 false, Effect.setPrimDim "hangindent" 0 false] := by
  refine ⟨set_primitive_dim (set_primitive_int (take_parshape_drop
      { e with sdata := { e.sdata with open_lists := rest } }) "hangafter" 0 false)
      "hangindent" 0 false, ?_, ?_, ?_, ?_, ?_, ?_, ?_, ?_, ?_, ?_, ?_, ?_⟩
  · simp [close_paragraph, h, take_parshape_drop, set_primitive_int, set_primitive_dim]
  · simp [close_paragraph, h, take_parshape_drop, set_primitive_int, set_primitive_dim]
  · simp [close_paragraph, h, take_parshape_drop, set_primitive_int, set_primitive_dim]
  · simp [close_paragraph, h, take_parshape_drop, set_primitive_int, set_primitive_dim]
  · simp [close_paragraph, h, take_parshape_drop, set_primitive_int, set_primitive_dim]
  · simp [close_paragraph, h, take_parshape_drop, set_primitive_int, set_primitive_dim]
  · simp [close_paragraph, h, take_parshape_drop, set_primitive_int, set_primitive_dim]
  · simp [close_paragraph, h, take_parshape_drop, set_primitive_int, set_primitive_dim]
  · intro nm hnm
    simp [close_paragraph, h, take_parshape_drop, set_primitive_int, set_primitive_dim, hnm]
  · intro nm hnm
    simp [close_paragraph, h, take_parshape_drop, set_primitive_int, set_primitive_dim, hnm]
  · simp [close_paragraph, h, take_parshape_drop, set_primitive_int, set_primitive_dim]
  · simp [close_paragraph, h, take_parshape_drop, set_primitive_int, set_primitive_dim]

/-- C6, instantiated: closing an empty paragraph pops the frame, drops
`\parshape` and resets the hang parameters, nothing else. -/
theorem close_paragraph_empty_effects_instance :
    ∃ e2, close_paragraph engineEmptyPar = (Except.ok (), e2)
      ∧ e2.sdata = { engineEmptyPar.sdata with open_lists := [] }
      ∧ e2.trace = [Effect.takeParshape, Effect.setPrimInt "hangafter" 0 false,
                    Effect.setPrimDim "hangindent" 0 false] := by
  obtain ⟨e2, h1, h2, _, _, _, _, _, _, _, _, _, h12⟩ :=
    close_paragraph_empty_effects engineEmptyPar 3 [] rfl
  exact ⟨e2, h1, h2, by simpa [engineEmptyPar, engine0] using h12⟩

theorem add_nodes_v_on_vertical (cs : List VNode) : ∀ e tp vch rest,
    e.sdata.open_lists = NodeList.Vertical tp vch :: rest →
    add_nodes_v e cs = (Except.ok (), { e with
      sdata := { e.sdata with open_lists := NodeList.Vertical tp (vch ++ cs) :: rest },
      trace := e.trace ++ cs.map Effect.addV }) := by
  induction cs with
  | nil =>
      intro e tp vch rest h
      simp only [add_nodes_v, List.append_nil, List.map_nil]
      rw [← h]
  | cons c cs ih =>
      intro e tp vch rest h
      have hstep : add_node_v e c = (Except.ok (), { e with
          sdata := { e.sdata with open_lists := NodeList.Vertical tp (vch ++ [c]) :: rest },
          trace := e.trace ++ [Effect.addV c] }) := by
        simp [add_node_v, h]
      have hrec := ih ({ e with
          sdata := { e.sdata with open_lists := NodeList.Vertical tp (vch ++ [c]) :: rest },
          trace := e.trace ++ [Effect.addV c] }) tp (vch ++ [c]) rest rfl
      simp only [add_nodes_v, hstep, hrec]
      simp

theorem add_node_h_parts (e : Engine) (n : HNode) (tp : HorizontalNodeListType)
    (hch : List HNode) (rest : List NodeList)
    (h : e.sdata.open_lists = NodeList.Horizontal tp hch :: rest) :
    (add_node_h e n).1 = Except.ok ()
    ∧ (add_node_h e n).2.sdata.open_lists = NodeList.Horizontal tp (hch ++ [n]) :: rest
    ∧ (add_node_h e n).2.trace = e.trace ++ [Effect.addH n]
    ∧ (add_node_h e n).2.state = e.state
    ∧ (add_node_h e n).2.mouth = e.mouth
    ∧ (add_node_h e n).2.sdata.page = e.sdata.page
    ∧ (add_node_h e n).2.messages = e.messages
    ∧ (add_node_h e n).2.afterassignment = e.afterassignment := by
  cases n <;> simp [add_node_h, h]

theorem add_nodes_h_on_horizontal (cs : List HNode) : ∀ e tp hch rest,
    e.sdata.open_lists = NodeList.Horizontal tp hch :: rest →
    ∃ e2, add_nodes_h e cs = (Except.ok (), e2)
      ∧ e2.sdata.open_lists = NodeList.Horizontal tp (hch ++ cs) :: rest
      ∧ e2.trace = e.trace ++ cs.map Effect.addH
      ∧ e2.state = e.state
      ∧ e2.mouth = e.mouth
      ∧ e2.sdata.page = e.sdata.page := by
  induction cs with
  | nil =>
      intro e tp hch rest h
      exact ⟨e, by simp [add_nodes_h], by simp [h], by simp, rfl, rfl, rfl⟩
  | cons c cs ih =>
      intro e tp hch rest h
      obtain ⟨h1, h2, h3, h4, h5, h6, _, _⟩ := add_node_h_parts e c tp hch rest h
      have hpair : add_node_h e c = (Except.ok (), (add_node_h e c).2) := by
        rw [← h1]
      obtain ⟨e2, g1, g2, g3, g4, g5, g6⟩ := ih ((add_node_h e c).2) tp (hch ++ [c]) rest h2
      refine ⟨e2, ?_, by simpa using g2, ?_, by rw [g4, h4], by rw [g5, h5], by rw [g6, h6]⟩
      · rw [add_nodes_h, hpair]
        exact g1
      · rw [g3, h3]
        simp

/-- C7: `close_align` pops the innermost frame - a Vertical HAlign or
Horizontal VAlign frame - and pops the Align group from the State
*before* reparenting (the trace shows the pop first); when the enclosing
frame is a math list the children become a single atom with a `VCenter`
nucleus and no sub/sup, otherwise they are appended verbatim, in order, to
the enclosing vertical resp. horizontal list. -/
theorem close_align_effects (e : Engine) :
    (∀ children mch ms mtp rest,
      e.sdata.open_lists = NodeList.Vertical VerticalNodeListType.HAlign children
          :: NodeList.Math mch ms mtp :: rest →
      close_align e = (Except.ok (), { e with
        sdata := { e.sdata with
          open_lists := NodeList.Math (mch ++ [vcenterAtom e children]) ms mtp :: rest },
        state := { e.state with grouplevel := e.state.grouplevel - 1,
                                grouptypes := e.state.grouptypes.tail },
        trace := e.trace ++ [Effect.statePop, Effect.addM (vcenterAtom e children)] }))
    ∧ (∀ children tp2 vch rest,
      e.sdata.open_lists = NodeList.Vertical VerticalNodeListType.HAlign children
          :: NodeList.Vertical tp2 vch :: rest →
      close_align e = (Except.ok (), { e with
        sdata := { e.sdata with
          open_lists := NodeList.Vertical tp2 (vch ++ children) :: rest },
        state := { e.state with grouplevel := e.state.grouplevel - 1,
                                grouptypes := e.state.grouptypes.tail },
        trace := e.trace ++ Effect.statePop :: children.map Effect.addV }))
    ∧ (∀ children tp2 hch rest,
      e.sdata.open_lists = NodeList.Horizontal HorizontalNodeListType.VAlign children
          :: NodeList.Horizontal tp2 hch :: rest →
      ∃ e2, close_align e = (Except.ok (), e2)
        ∧ e2.sdata.open_lists = NodeList.Horizontal tp2 (hch ++ children) :: rest
        ∧ e2.trace = e.trace ++ Effect.statePop :: children.map Effect.addH
        ∧ e2.state.grouplevel = e.state.grouplevel - 1
        ∧ e2.sdata.page = e.sdata.page
        ∧ e2.mouth = e.mouth) := by
  refine ⟨?_, ?_, ?_⟩
  · intro children mch ms mtp rest h
    simp [close_align, h, statePop, add_node_m, vcenterAtom]
  · intro children tp2 vch rest h
    have hrec := add_nodes_v_on_vertical children (statePop { e with
        sdata := { e.sdata with open_lists := NodeList.Vertical tp2 vch :: rest } })
        tp2 vch rest (by simp [statePop])
    simp only [close_align, h]
    cases tp2 <;> · rw [hrec]; simp [statePop]
  · intro children tp2 hch rest h
    obtain ⟨e2, g1, g2, g3, g4, g5, g6⟩ := add_nodes_h_on_horizontal children
        (statePop { e with
          sdata := { e.sdata with open_lists := NodeList.Horizontal tp2 hch :: rest } })
        tp2 hch rest (by simp [statePop])
    refine ⟨e2, ?_, g2, ?_, ?_, ?_, ?_⟩
    · simp only [close_align, h]
      exact g1
    · rw [g3]; simp [statePop]
    · rw [g4]; simp [statePop]
    · rw [g6]; simp [statePop]
    · rw [g5]; simp [statePop]

/-- C7, instantiated: closing an `\halign` inside a vertical box appends
its children, in order, after the Align group pop. -/
theorem close_align_effects_instance :
    close_align engineAlignV = (Except.ok (), { engineAlignV with
      sdata := { engineAlignV.sdata with
        open_lists := [NodeList.Vertical VerticalNodeListType.Box [VNode.VKern 7]] },
      state := { engineAlignV.state with grouplevel := 0, grouptypes := [] },
      trace := [Effect.statePop, Effect.addV (VNode.VKern 7)] }) := by
  have h := (close_align_effects engineAlignV).2.1 [VNode.VKern 7]
      VerticalNodeListType.Box [] [] rfl
  simpa [engineAlignV, engine0, state0] using h


theorem popAll_facts (n : Nat) : ∀ e : Engine, (popAll n e).sdata = e.sdata
    ∧ (popAll n e).state.grouplevel = e.state.grouplevel - n
    ∧ ∃ t, (popAll n e).trace = e.trace ++ t := by
  induction n with
  | zero => intro e; exact ⟨rfl, by simp [popAll], [], by simp [popAll]⟩
  | succ n ih =>
      intro e
      obtain ⟨h1, h2, t, h3⟩ := ih (statePop e)
      refine ⟨?_, ?_, ?_⟩
      · rw [show popAll (n + 1) e = popAll n (statePop e) from rfl, h1]; rfl
      · rw [show popAll (n + 1) e = popAll n (statePop e) from rfl, h2]
        simp only [statePop]
        omega
      · refine ⟨Effect.statePop :: t, ?_⟩
        rw [show popAll (n + 1) e = popAll n (statePop e) from rfl, h3]
        simp [statePop]

theorem maybe_do_output_facts (e : Engine) (p : Option Int) :
    ∃ e2 t, maybe_do_output e p = (Except.ok (), e2)
      ∧ e2.sdata.open_lists = e.sdata.open_lists
      ∧ e2.state = e.state
      ∧ e2.trace = e.trace ++ t := by
  simp only [maybe_do_output]
  split
  · refine ⟨{ e with
        sdata := { e.sdata with
          page := [],
          in_output := false,
          deadcycles := e.sdata.deadcycles + 1 },
        trace := e.trace ++ [Effect.doOutputCall p] },
      [Effect.doOutputCall p], ?_, rfl, rfl, rfl⟩
    simp [do_output]
  · exact ⟨e, [], rfl, rfl, rfl, by simp⟩

theorem add_node_v_on_empty (e : Engine) (n : VNode) (h : e.sdata.open_lists = []) :
    ∃ e2 t, add_node_v e n = (Except.ok (), e2)
      ∧ e2.sdata.open_lists = []
      ∧ e2.state = e.state
      ∧ e2.trace = e.trace ++ Effect.addV n :: t := by
  simp only [add_node_v, h]
  obtain ⟨e2, t, h1, h2, h3, h4⟩ := maybe_do_output_facts { e with
      sdata := { e.sdata with
        page := e.sdata.page ++ [n],
        open_lists := [],
        pagetotal := e.sdata.pagetotal + vContribution n },
      trace := e.trace ++ [Effect.addV n] }
    (match n with | VNode.Penalty p => if p ≤ -10000 then some p else none | _ => none)
  refine ⟨e2, t, h1, ?_, h3, ?_⟩
  · rw [h2]
  · rw [h4]; simp

/-- C8: `flush` at end of document always succeeds; afterwards both the
page and the open-list stack are empty and a forced-break penalty (-10000)
was added through `add_node_v`; when lists were still open, the
unclosed-group warning was emitted and every State group was popped,
leaving group level 0. -/
theorem flush_end_of_document (e : Engine) :
    ∃ e2, flush e = (Except.ok (), e2)
      ∧ e2.sdata.page = []
      ∧ e2.sdata.open_lists = []
      ∧ Effect.addV (VNode.Penalty (-10000)) ∈ e2.trace
      ∧ (e.sdata.open_lists ≠ [] →
          Effect.message ("(\\end occurred inside a group at level "
            ++ toString e.state.grouplevel ++ ")") ∈ e2.trace
          ∧ e2.state.grouplevel = 0) := by
  by_cases hop : e.sdata.open_lists = []
  · obtain ⟨e2, t, h1, h2, h3, h4⟩ := add_node_v_on_empty
        { e with sdata := { e.sdata with open_lists := [] } } (VNode.Penalty (-10000)) rfl
    refine ⟨{ e2 with sdata := { e2.sdata with page := [] } }, ?_, rfl, ?_, ?_, ?_⟩
    · simp only [flush, hop, List.isEmpty_nil, if_true]
      rw [h1]
    · simpa using h2
    · simp [h4]
    · intro hne; exact absurd hop hne
  · obtain ⟨x, xs, hxe⟩ : ∃ x xs, e.sdata.open_lists = x :: xs := by
      cases hh : e.sdata.open_lists with
      | nil => exact absurd hh hop
      | cons a as => exact ⟨a, as, rfl⟩
    simp only [flush]
    rw [if_neg (by simp [hxe])]
    set e0 : Engine := { e with sdata := { e.sdata with open_lists := [] } } with he0
    set msg : String := "(\\end occurred inside a group at level "
        ++ toString e0.state.grouplevel ++ ")" with hmsg
    set ea : Engine := outMessage e0 msg with hea
    set eb : Engine := (match ea.state.grouptypes.head? with
      | some g => outMessage ea ("## " ++ toString g ++ " group")
      | none => ea) with heb
    have hms : msg = "(\\end occurred inside a group at level "
        ++ toString e.state.grouplevel ++ ")" := rfl
    have hebsd : eb.sdata = { e.sdata with open_lists := [] } := by
      rw [heb]
      cases hcase : ea.state.grouptypes.head? <;> simp [hcase, hea, outMessage, he0]
    have hebtr : Effect.message msg ∈ eb.trace := by
      rw [heb]
      cases hcase : ea.state.grouptypes.head? <;> simp [hcase, hea, outMessage, he0]
    obtain ⟨psd, plvl, t0, ptr⟩ := popAll_facts eb.state.grouplevel eb
    have hecopen : (popAll eb.state.grouplevel eb).sdata.open_lists = [] := by
      rw [psd, hebsd]
    obtain ⟨e2, t, h1, h2, h3, h4⟩ := add_node_v_on_empty
        (popAll eb.state.grouplevel eb) (VNode.Penalty (-10000)) hecopen
    refine ⟨{ e2 with sdata := { e2.sdata with page := [] } }, ?_, rfl, ?_, ?_, ?_⟩
    · rw [h1]
    · simpa using h2
    · simp [h4]
    · intro _
      constructor
      · have hmem : Effect.message msg ∈ e2.trace := by
          rw [h4, ptr]
          exact List.mem_append_left _ (List.mem_append_left _ hebtr)
        exact hms ▸ hmem
      · have hst : ({ e2 with sdata := { e2.sdata with page := [] } } : Engine).state
            = e2.state := rfl
        rw [hst, h3, plvl, Nat.sub_self]

/-- C8, instantiated: flushing with one unclosed vertical-box frame warns,
pops the group, and leaves page and stack empty. -/
theorem flush_end_of_document_instance :
    ∃ e2, flush engineUnclosed = (Except.ok (), e2)
      ∧ e2.sdata.page = [] ∧ e2.sdata.open_lists = []
      ∧ Effect.addV (VNode.Penalty (-10000)) ∈ e2.trace
      ∧ Effect.message "(\\end occurred inside a group at level 1)" ∈ e2.trace
      ∧ e2.state.grouplevel = 0 := by
  obtain ⟨e2, h1, h2, h3, h4, h5⟩ := flush_end_of_document engineUnclosed
  have h6 := h5 (by simp [engineUnclosed])
  have hs : ("(\\end occurred inside a group at level "
      ++ toString engineUnclosed.state.grouplevel ++ ")")
      = "(\\end occurred inside a group at level 1)" := rfl
  exact ⟨e2, h1, h2, h3, h4, hs ▸ h6.1, h6.2⟩

/-- C9: with mathcode 0x8000 and a character token, `do_mathchar` requeues
the character as an active token and adds no node; in every other case it
adds the `MathChar` decoded from the code - taking the token's character
when there is one - to the current math list as an atom. -/
theorem do_mathchar_effects (e : Engine) (code : Nat) :
    (∀ ch cc, code = 32768 →
      do_mathchar e code (some (Token.character ch cc))
        = (Except.ok (), requeue e (Token.character ch CommandCode.Active))
      ∧ (requeue e (Token.character ch CommandCode.Active)).sdata = e.sdata
      ∧ (requeue e (Token.character ch CommandCode.Active)).mouth
          = Token.character ch CommandCode.Active :: e.mouth)
    ∧ (∀ ch cc mch ms mtp rest, code ≠ 32768 →
        e.sdata.open_lists = NodeList.Math mch ms mtp :: rest →
        do_mathchar e code (some (Token.character ch cc))
          = (Except.ok (), { e with
              sdata := { e.sdata with
                open_lists := NodeList.Math
                  (mch ++ [MathNode.Atom (MathChar.from_u32 code (some ch)).to_atom])
                  ms mtp :: rest },
              trace := e.trace
                ++ [Effect.addM (MathNode.Atom (MathChar.from_u32 code (some ch)).to_atom)] }))
    ∧ (∀ tok mch ms mtp rest,
        (∀ ch cc, tok ≠ some (Token.character ch cc)) →
        e.sdata.open_lists = NodeList.Math mch ms mtp :: rest →
        do_mathchar e code tok
          = (Except.ok (), { e with
              sdata := { e.sdata with
                open_lists := NodeList.Math
                  (mch ++ [MathNode.Atom (MathChar.from_u32 code none).to_atom])
                  ms mtp :: rest },
              trace := e.trace
                ++ [Effect.addM (MathNode.Atom (MathChar.from_u32 code none).to_atom)] })) := by
  refine ⟨?_, ?_, ?_⟩
  · intro ch cc hc
    exact ⟨by simp [do_mathchar, hc], rfl, rfl⟩
  · intro ch cc mch ms mtp rest hc h
    simp [do_mathchar, hc, add_node_m, h]
  · intro tok mch ms mtp rest htok h
    cases tok with
    | none => simp [do_mathchar, add_node_m, h]
    | some t =>
        cases t with
        | character ch cc => exact absurd rfl (htok ch cc)
        | cs nm => simp [do_mathchar, add_node_m, h]

/-- C9, instantiated: mathcode 0x8000 on the character `a` requeues it as
an active token; any other code adds an atom to the math list. -/
theorem do_mathchar_effects_instance :
    do_mathchar engineMathTop 32768 (some (Token.character 97 CommandCode.Letter))
      = (Except.ok (), requeue engineMathTop (Token.character 97 CommandCode.Active))
    ∧ do_mathchar engineMathTop 28961 (some (Token.character 97 CommandCode.Letter))
      = (Except.ok (), { engineMathTop with
          sdata := { engineMathTop.sdata with
            open_lists := [NodeList.Math
              [MathNode.Atom (MathChar.from_u32 28961 (some 97)).to_atom]
              0 (MathNodeListType.Top false)] },
          trace := engineMathTop.trace
            ++ [Effect.addM (MathNode.Atom (MathChar.from_u32 28961 (some 97)).to_atom)] }) := by
  constructor
  · exact ((do_mathchar_effects engineMathTop 32768).1 97 CommandCode.Letter rfl).1
  · have h := (do_mathchar_effects engineMathTop 28961).2.1 97 CommandCode.Letter
        [] 0 (MathNodeListType.Top false) [] (by decide) rfl
    simpa using h

/-- C10: when the box-producing callback reports no box (`Left(None)`, as
`read_box` does after its recoverable "A box was supposed to be here"
error), `do_box` returns `Ok` with the engine exactly as the callback left
it: no node appended, no frame pushed, page untouched. -/
theorem do_box_none_effects (bx : Engine → Token → TexRes (Sum (Option TeXBox) BoxInfo))
    (e : Engine) (tok : Token) (e1 : Engine)
    (h : bx e tok = (Except.ok (Sum.inl none), e1)) :
    do_box bx e tok = (Except.ok (), e1)
    ∧ (do_box bx e tok).2.sdata.open_lists = e1.sdata.open_lists
    ∧ (do_box bx e tok).2.sdata.page = e1.sdata.page
    ∧ (do_box bx e tok).2.trace = e1.trace := by
  have h1 : do_box bx e tok = (Except.ok (), e1) := by simp [do_box, h]
  exact ⟨h1, by rw [h1], by rw [h1], by rw [h1]⟩

/-- C10, instantiated: a callback returning `Left(None)` leaves the engine
unchanged. -/
theorem do_box_none_effects_instance :
    do_box (fun e _ => (Except.ok (Sum.inl none), e)) engine0 (Token.cs "hbox")
      = (Except.ok (), engine0) := by
  exact (do_box_none_effects (fun e _ => (Except.ok (Sum.inl none), e))
    engine0 (Token.cs "hbox") engine0 rfl).1
